import Mathlib

/-!
Shallow embedding of the Visium ingestion/consistency core.

The definitions below are translated from the TypeScript source:
the objectives router (normalization, deduplication, enum and number
parsing, route guards) and the database layer (the transactional graph
writer, reference resolution, relationship upsert, and the read-model
queries).  JavaScript numbers are modelled as rationals plus an explicit
NaN marker; JavaScript strings as Lean strings over their character
lists (ASCII case mapping, which covers every input the claims touch).
Definitions whose source is not part of the repository snapshot (the
direct relationship create/update record helpers and the storage
engine's unique-key behaviour) are modelled from the specification and
marked as such in their doc comments.
-/

namespace Visium

/-! ## JavaScript string primitives -/

/-- The JavaScript whitespace class used by `trim` and the regex `\s`. -/
def isJsWs (c : Char) : Bool :=
  c = ' ' || c = '\t' || c = '\n' || c = '\r' || c = '\x0b' || c = '\x0c'

/-- ASCII lower-casing of one character, as `String.prototype.toLowerCase`
acts on the ASCII range. -/
def lowerChar (c : Char) : Char :=
  if 'A' ≤ c ∧ c ≤ 'Z' then Char.ofNat (c.toNat + 32) else c

/-- ASCII upper-casing of one character, as `String.prototype.toUpperCase`
acts on the ASCII range. -/
def upperChar (c : Char) : Char :=
  if 'a' ≤ c ∧ c ≤ 'z' then Char.ofNat (c.toNat - 32) else c

def jsToLower (s : String) : String := ⟨s.data.map lowerChar⟩

def jsToUpper (s : String) : String := ⟨s.data.map upperChar⟩

/-- `String.prototype.trim`: strip leading and trailing whitespace. -/
def trimChars (l : List Char) : List Char :=
  ((l.dropWhile isJsWs).reverse.dropWhile isJsWs).reverse

def jsTrim (s : String) : String := ⟨trimChars s.data⟩

/-- Worker for `replace(/\s+/g, rep)`: `inRun` records whether the previous
character was whitespace (so the run is emitted only once). -/
def collapseGo (rep : Char) (inRun : Bool) : List Char → List Char
  | [] => []
  | c :: rest =>
    if isJsWs c then
      if inRun then collapseGo rep true rest
      else rep :: collapseGo rep true rest
    else c :: collapseGo rep false rest

/-- `replace(/\s+/g, rep)`: collapse every whitespace run to one `rep`. -/
def collapseWsWith (rep : Char) (l : List Char) : List Char :=
  collapseGo rep false l

/-- Decidable list-prefix test (used for `String.prototype.startsWith`). -/
def isPrefixList : List Char → List Char → Bool
  | [], _ => true
  | _ :: _, [] => false
  | a :: as, b :: bs => a = b && isPrefixList as bs

def strStartsWith (s pre : String) : Bool := isPrefixList pre.data s.data

def strDrop (s : String) (n : Nat) : String := ⟨s.data.drop n⟩

/-! ## Text Normalizer (`normalize` in the objectives router) -/

structure NormalizedText where
  original : String
  normalized : String
deriving DecidableEq, Repr

/-- `normalize(statement)`: `original` is the trimmed input, `normalized`
is the lower-cased original with whitespace runs collapsed to one space. -/
def normalize (statement : String) : NormalizedText :=
  let original := jsTrim statement
  { original := original
    normalized := ⟨collapseWsWith ' ' (original.data.map lowerChar)⟩ }

/-! ## Enums (Prisma schema enums used by the source) -/

inductive ObjectiveStatus
  | PROPOSED | PLANNED | ACTIVE | BLOCKED | COMPLETE
deriving DecidableEq, Repr

inductive ObjectivePriority
  | HIGH | MEDIUM | LOW
deriving DecidableEq, Repr

inductive ObjectiveRelationshipType
  | SUPPORTS | DEPENDS_ON | RELATES_TO | BLOCKS | INFORMS
deriving DecidableEq, Repr

/-- The `normalized in ObjectiveStatus` membership test of the source. -/
def statusOfName (s : String) : Option ObjectiveStatus :=
  if s = "PROPOSED" then some .PROPOSED
  else if s = "PLANNED" then some .PLANNED
  else if s = "ACTIVE" then some .ACTIVE
  else if s = "BLOCKED" then some .BLOCKED
  else if s = "COMPLETE" then some .COMPLETE
  else none

/-- The `normalized in ObjectivePriority` membership test of the source. -/
def priorityOfName (s : String) : Option ObjectivePriority :=
  if s = "HIGH" then some .HIGH
  else if s = "MEDIUM" then some .MEDIUM
  else if s = "LOW" then some .LOW
  else none

/-- The `normalized in ObjectiveRelationshipType` membership test. -/
def relTypeOfName (s : String) : Option ObjectiveRelationshipType :=
  if s = "SUPPORTS" then some .SUPPORTS
  else if s = "DEPENDS_ON" then some .DEPENDS_ON
  else if s = "RELATES_TO" then some .RELATES_TO
  else if s = "BLOCKS" then some .BLOCKS
  else if s = "INFORMS" then some .INFORMS
  else none

/-- `parseStatus` from the objectives router.  An absent or empty (falsy)
value yields `none`; otherwise the trimmed upper-cased value is matched
against the enum and then against the synonym table, defaulting to
`PROPOSED`. -/
def parseStatus (value : Option String) : Option ObjectiveStatus :=
  match value with
  | none => none
  | some v =>
    if v = "" then none
    else
      let normalized := jsToUpper (jsTrim v)
      match statusOfName normalized with
      | some s => some s
      | none =>
        if normalized = "IN PROGRESS" ∨ normalized = "IN_PROGRESS" ∨
            normalized = "ACTIVE" then some .ACTIVE
        else if normalized = "PLANNED" ∨ normalized = "PLANNING" then some .PLANNED
        else if normalized = "BLOCKED" ∨ normalized = "ON HOLD" ∨
            normalized = "ON_HOLD" then some .BLOCKED
        else if normalized = "DONE" ∨ normalized = "COMPLETE" ∨
            normalized = "COMPLETED" then some .COMPLETE
        else some .PROPOSED

/-- `parsePriority` from the objectives router. -/
def parsePriority (value : Option String) : Option ObjectivePriority :=
  match value with
  | none => none
  | some v =>
    if v = "" then none
    else
      let normalized := jsToUpper (jsTrim v)
      match priorityOfName normalized with
      | some p => some p
      | none =>
        if normalized = "P0" ∨ normalized = "CRITICAL" ∨
            normalized = "HIGHEST" then some .HIGH
        else if normalized = "P2" ∨ normalized = "LOW" then some .LOW
        else some .MEDIUM

/-- `parseRelationshipType`: trim, upper-case, turn whitespace runs into
underscores, match the enum, then the synonym table; unclassifiable
values yield `none`. -/
def parseRelationshipType (value : Option String) : Option ObjectiveRelationshipType :=
  match value with
  | none => none
  | some v =>
    if v = "" then none
    else
      let normalized : String := ⟨collapseWsWith '_' ((jsTrim v).data.map upperChar)⟩
      match relTypeOfName normalized with
      | some t => some t
      | none =>
        if normalized = "SUPPORTS" ∨ normalized = "ALIGNS_WITH" then some .SUPPORTS
        else if normalized = "UNBLOCKS" ∨ normalized = "BLOCKED_BY" ∨
            normalized = "DEPENDS_ON" then some .DEPENDS_ON
        else if normalized = "RELATES_TO" ∨ normalized = "CONNECTED_TO" then some .RELATES_TO
        else if normalized = "BLOCKS" then some .BLOCKS
        else if normalized = "INFORMS" ∨ normalized = "INSPIRES" then some .INFORMS
        else none


/-! ## JavaScript numbers -/

/-- A JavaScript number: either NaN or a finite value (modelled as a
rational, which is exact for every operation the source performs). -/
inductive JsNum
  | nan
  | val (q : ℚ)
deriving DecidableEq, Repr

/-- A value of TypeScript type `string | number | null | undefined`,
with `absent` standing for both `null` and `undefined`. -/
inductive NumInput
  | absent
  | num (x : JsNum)
  | str (s : String)
deriving DecidableEq, Repr

/-- `clamp` from the objectives router: NaN to 0, then clamp to [0,1]. -/
def clamp : JsNum → ℚ
  | .nan => 0
  | .val q => if q < 0 then 0 else if q > 1 then 1 else q

def digitsVal (l : List Char) : Nat :=
  l.foldl (fun acc c => acc * 10 + (c.toNat - '0'.toNat)) 0

/-- Model of the JavaScript builtin `parseFloat`: skip leading whitespace,
optional sign, decimal digits with an optional fractional part and an
optional exponent; NaN when no digits can be consumed.  (The `Infinity`
literal is not modelled; no caller can produce it.)  The decimal value is
assembled with `mkRat` over machine arithmetic so it evaluates inside the
kernel. -/
def jsParseFloat (s : String) : JsNum :=
  let l0 := s.data.dropWhile isJsWs
  let signed : Bool × List Char :=
    match l0 with
    | '-' :: rest => (true, rest)
    | '+' :: rest => (false, rest)
    | _ => (false, l0)
  let neg := signed.1
  let l := signed.2
  let intDigits := l.takeWhile Char.isDigit
  let l1 := l.dropWhile Char.isDigit
  let fracPart : List Char × List Char :=
    match l1 with
    | '.' :: rest => (rest.takeWhile Char.isDigit, rest.dropWhile Char.isDigit)
    | _ => ([], l1)
  let fracDigits := fracPart.1
  let l2 := fracPart.2
  if intDigits = [] ∧ fracDigits = [] then .nan
  else
    let num0 : Int :=
      (digitsVal intDigits * 10 ^ fracDigits.length + digitsVal fracDigits : Nat)
    let num1 : Int := if neg then -num0 else num0
    let exp : Option (Bool × Nat) :=
      match l2 with
      | c :: rest =>
        if c = 'e' ∨ c = 'E' then
          let esigned : Bool × List Char :=
            match rest with
            | '-' :: r => (true, r)
            | '+' :: r => (false, r)
            | _ => (false, rest)
          let eDigits := esigned.2.takeWhile Char.isDigit
          if eDigits = [] then none else some (esigned.1, digitsVal eDigits)
        else none
      | [] => none
    match exp with
    | none => .val (mkRat num1 (10 ^ fracDigits.length))
    | some (true, e) => .val (mkRat num1 (10 ^ fracDigits.length * 10 ^ e))
    | some (false, e) => .val (mkRat (num1 * 10 ^ e) (10 ^ fracDigits.length))

/-- Exact division by 100 on rationals, written with `mkRat` so it
evaluates inside the kernel (`qDiv100 p = p / 100`, proved below). -/
def qDiv100 (p : ℚ) : ℚ := mkRat p.num (p.den * 100)

/-- The string branch of `parseConfidence`: strip every character that is
not a digit or a dot, `parseFloat`, treat results above 1 as percentages. -/
def parseConfidenceStr (s : String) : Option ℚ :=
  let filtered : String := ⟨s.data.filter (fun c => c.isDigit || c = '.')⟩
  match jsParseFloat filtered with
  | .nan => none
  | .val p => some (if p > 1 then clamp (.val (qDiv100 p)) else clamp (.val p))

/-- `parseConfidence` from the objectives router.  A non-NaN number is
clamped directly; anything else is stringified (NaN prints as "NaN") and
handled by the string branch. -/
def parseConfidence : NumInput → Option ℚ
  | .absent => none
  | .num .nan => parseConfidenceStr "NaN"
  | .num (.val q) => some (clamp (.val q))
  | .str s => parseConfidenceStr s

/-- The string branch of `parseWeight`: plain `parseFloat`, no percentage
handling. -/
def parseWeightStr (s : String) : Option ℚ :=
  match jsParseFloat s with
  | .nan => none
  | .val p => some (clamp (.val p))

/-- `parseWeight` from the objectives router. -/
def parseWeight : NumInput → Option ℚ
  | .absent => none
  | .num .nan => parseWeightStr "NaN"
  | .num (.val q) => some (clamp (.val q))
  | .str s => parseWeightStr s


/-! ## `sanitizeList` (trim, optional lower-casing, order-preserving dedup) -/

def sanitizeListGo (lowercase : Bool) (seen : List String) : List String → List String
  | [] => []
  | v :: rest =>
    let trimmed := jsTrim v
    if trimmed = "" then sanitizeListGo lowercase seen rest
    else
      let normalized := if lowercase then jsToLower trimmed else trimmed
      if normalized ∈ seen then sanitizeListGo lowercase seen rest
      else normalized :: sanitizeListGo lowercase (normalized :: seen) rest

/-- `sanitizeList` from the objectives router, restricted to string
entries (the source drops non-string entries before this logic). -/
def sanitizeList (values : List String) (lowercase : Bool) : List String :=
  sanitizeListGo lowercase [] values

/-! ## Agent extraction inputs and drafts -/

/-- One objective candidate of the structured LLM extraction
(`AgentObjective` in the source). -/
structure AgentObjective where
  key : String
  statement : String
  context : Option String := none
  category : Option String := none
  timeframe : Option String := none
  status : Option String := none
  priority : Option String := none
  confidence : NumInput := .absent
  owner : Option String := none
  metrics : List String := []
  tags : List String := []
  sourceLabel : Option String := none
  sourceExcerpt : Option String := none
deriving DecidableEq, Repr

/-- One relationship candidate of the extraction (`AgentRelationship`).
The source fields `from`/`to` are renamed `fromRef`/`toRef` because
`from` is a Lean keyword. -/
structure AgentRelationship where
  fromRef : String
  toRef : String
  type : Option String := none
  rationale : Option String := none
  weight : NumInput := .absent
deriving DecidableEq, Repr

/-- `AgentGraphExtraction`. -/
structure AgentGraphExtraction where
  title : Option String := none
  objectives : List AgentObjective := []
  relationships : List AgentRelationship := []
deriving DecidableEq, Repr

/-- `ObjectiveDraft` from the database layer. -/
structure ObjectiveDraft where
  key : String
  text : String
  context : Option String := none
  category : Option String := none
  timeframe : Option String := none
  status : Option ObjectiveStatus := none
  priority : Option ObjectivePriority := none
  confidence : Option ℚ := none
  owner : Option String := none
  metrics : List String := []
  tags : List String := []
  sourceLabel : Option String := none
  sourceExcerpt : Option String := none
deriving DecidableEq, Repr

/-- `RelationshipDraft` from the database layer (`from`/`to` renamed as
above). -/
structure RelationshipDraft where
  fromRef : String
  toRef : String
  type : ObjectiveRelationshipType
  rationale : Option String := none
  weight : Option ℚ := none
deriving DecidableEq, Repr

/-- `toObjectiveDraft` from the objectives router. -/
def toObjectiveDraft (o : AgentObjective) (metaTitle : Option String) : ObjectiveDraft :=
  { key := o.key
    text := jsTrim o.statement
    context := o.context.map jsTrim
    category := o.category
    timeframe := o.timeframe
    status := parseStatus o.status
    priority := parsePriority o.priority
    confidence := parseConfidence o.confidence
    owner := o.owner.map jsTrim
    metrics := sanitizeList o.metrics false
    tags := sanitizeList o.tags true
    sourceLabel := some ((o.sourceLabel.map jsTrim).getD (metaTitle.getD "Unlabeled intake"))
    sourceExcerpt := o.sourceExcerpt.map jsTrim }

/-- `toRelationshipDraft`: `none` when the type string cannot be
classified. -/
def toRelationshipDraft (r : AgentRelationship) : Option RelationshipDraft :=
  match parseRelationshipType r.type with
  | none => none
  | some t =>
    some { fromRef := r.fromRef
           toRef := r.toRef
           type := t
           rationale := r.rationale.map jsTrim
           weight := parseWeight r.weight }

/-! ## Deduplication Filter (`prepareObjectiveDrafts`) -/

/-- Result triple of `prepareObjectiveDrafts`. -/
structure PreparedDrafts where
  objectives : List ObjectiveDraft
  relationships : List RelationshipDraft
  duplicates : Nat
deriving DecidableEq, Repr

/-- Case-insensitive string equality, as Prisma's
`equals ... mode: 'insensitive'`. -/
def ciEquals (a b : String) : Bool := jsToLower a = jsToLower b

/-- The candidate loop of `prepareObjectiveDrafts`: skip candidates whose
normalized form is empty, count those already seen as duplicates, keep
the rest while extending the seen set. -/
def dedupLoop (metaTitle : Option String) :
    List String → List AgentObjective → List ObjectiveDraft × Nat
  | _, [] => ([], 0)
  | seen, o :: rest =>
    if (normalize o.statement).normalized = "" then dedupLoop metaTitle seen rest
    else if (normalize o.statement).normalized ∈ seen then
      ((dedupLoop metaTitle seen rest).1, (dedupLoop metaTitle seen rest).2 + 1)
    else
      (toObjectiveDraft o metaTitle ::
        (dedupLoop metaTitle ((normalize o.statement).normalized :: seen) rest).1,
       (dedupLoop metaTitle ((normalize o.statement).normalized :: seen) rest).2)

/-- Endpoint validity test of the relationship filter: tagged external
reference or surviving batch-local key. -/
def refValid (validKeys : List String) (ref : String) : Bool :=
  strStartsWith ref "existing:" || decide (ref ∈ validKeys)

/-- The seen set seeded from the store: normalized forms of every stored
text that case-insensitively equals some candidate's trimmed original
(the single batch query of `prepareObjectiveDrafts`). -/
def existingSeen (extraction : AgentGraphExtraction) (storeTexts : List String) :
    List String :=
  let normalizedStatements := extraction.objectives.map (fun o => normalize o.statement)
  let existingMatches :=
    storeTexts.filter (fun t => normalizedStatements.any (fun v => ciEquals t v.original))
  existingMatches.map (fun t => (normalize t).normalized)

/-- `prepareObjectiveDrafts`: the store is passed as the list of stored
objective texts (the source queries only the `text` column).  The
existing-match query, the seen set seeded from it, the dedup loop, and
the relationship filter follow the source line by line. -/
def prepareObjectiveDrafts (extraction : AgentGraphExtraction)
    (metaTitle : Option String) (storeTexts : List String) : PreparedDrafts :=
  let r := dedupLoop metaTitle (existingSeen extraction storeTexts) extraction.objectives
  let validKeys := r.1.map (·.key)
  let rels := (extraction.relationships.filterMap toRelationshipDraft).filter
    (fun rel => refValid validKeys rel.fromRef && refValid validKeys rel.toRef)
  { objectives := r.1, relationships := rels, duplicates := r.2 }



/-! ## Persistent rows and the store

Rows carry exactly the columns the source reads or writes.  Identifiers
are strings (uuids in the real store); fresh ids are drawn from a
counter.  `createdAt` is a logical timestamp drawn from a clock that
advances on every insert, which is all `orderBy: createdAt desc` can
observe. -/

structure Objective where
  id : String
  text : String
  context : Option String
  category : Option String
  timeframe : Option String
  status : ObjectiveStatus
  priority : ObjectivePriority
  confidence : Option ℚ
  owner : Option String
  metrics : List String
  tags : List String
  sourceLabel : Option String
  sourceExcerpt : Option String
  entryId : String
  createdAt : Nat
deriving DecidableEq, Repr

structure ObjectiveRelationship where
  id : String
  fromId : String
  toId : String
  type : ObjectiveRelationshipType
  rationale : Option String
  weight : Option ℚ
  createdAt : Nat
deriving DecidableEq, Repr

structure KnowledgeEntry where
  id : String
  rawContent : String
  title : Option String
  createdAt : Nat
deriving DecidableEq, Repr

structure Store where
  objectives : List Objective
  relationships : List ObjectiveRelationship
  entries : List KnowledgeEntry
  nextId : Nat
  clock : Nat
deriving DecidableEq, Repr

def Store.empty : Store :=
  { objectives := [], relationships := [], entries := [], nextId := 0, clock := 0 }

def mkId (n : Nat) : String := ⟨'u' :: Nat.toDigits 10 n⟩

/-! ## Graph Writer (`createKnowledgeGraphEntry`)

The source wraps the three steps in `prisma.$transaction`; the
transaction either commits the final working store or, when any step
throws, leaves the pre-call store visible (rollback).  Storage-level
throws (uniqueness violations, constraint violations, connection loss)
are modelled by a fault oracle saying which step, if any, throws. -/

structure CreateKnowledgeGraphArgs where
  rawContent : String
  title : Option String
  objectives : List ObjectiveDraft
  relationships : List RelationshipDraft
deriving DecidableEq, Repr

structure WriteResult where
  entry : KnowledgeEntry
  objectives : List Objective
  relationships : List ObjectiveRelationship
deriving DecidableEq, Repr

/-- Which steps of the transaction the storage engine fails:
`entry` the KnowledgeEntry insert, `obj i` the i-th objective insert,
`rel i` the i-th relationship upsert actually sent to storage. -/
structure TxFault where
  entry : Bool
  obj : Nat → Bool
  rel : Nat → Bool

/-- The fault-free storage engine. -/
def noFault : TxFault := ⟨false, fun _ => false, fun _ => false⟩

def insertEntry (s : Store) (rawContent : String) (title : Option String) :
    Store × KnowledgeEntry :=
  let e : KnowledgeEntry :=
    { id := mkId s.nextId, rawContent := rawContent, title := title, createdAt := s.clock }
  ({ s with entries := s.entries ++ [e], nextId := s.nextId + 1, clock := s.clock + 1 }, e)

/-- `tx.objective.create`, with the writer's defaults for absent fields. -/
def insertObjectiveRow (s : Store) (entryId : String) (d : ObjectiveDraft) :
    Store × Objective :=
  let o : Objective :=
    { id := mkId s.nextId
      text := d.text
      context := d.context
      category := d.category
      timeframe := d.timeframe
      status := d.status.getD .PROPOSED
      priority := d.priority.getD .MEDIUM
      confidence := d.confidence
      owner := d.owner
      metrics := d.metrics
      tags := d.tags
      sourceLabel := d.sourceLabel
      sourceExcerpt := d.sourceExcerpt
      entryId := entryId
      createdAt := s.clock }
  ({ s with objectives := s.objectives ++ [o], nextId := s.nextId + 1, clock := s.clock + 1 }, o)

/-- The objective insert loop.  The returned association list is the
`keyToId` map; a later binding for the same key shadows an earlier one
(as `Map.set` overwrites), hence later bindings are placed in front. -/
def insertObjectives (fault : TxFault) (entryId : String) :
    Store → Nat → List ObjectiveDraft →
    Option (Store × List (String × String) × List Objective)
  | s, _, [] => some (s, [], [])
  | s, i, d :: rest =>
    if fault.obj i then none
    else
      let r := insertObjectiveRow s entryId d
      match insertObjectives fault entryId r.1 (i + 1) rest with
      | none => none
      | some (s2, m, os) => some (s2, m ++ [(d.key, r.2.id)], r.2 :: os)

/-- `resolveReference` from the database layer: an empty (falsy)
reference is invalid, an `existing:` reference resolves to the stripped
identifier, anything else is looked up among the batch keys. -/
def resolveReference (ref : String) (keyToId : List (String × String)) : Option String :=
  if ref = "" then none
  else if strStartsWith ref "existing:" then some (strDrop ref 9)
  else keyToId.lookup ref

/-- The unique upsert key `fromId_toId_type` as a row predicate. -/
def relKeyMatches (fromId toId : String) (t : ObjectiveRelationshipType)
    (x : ObjectiveRelationship) : Bool :=
  decide (x.fromId = fromId) && decide (x.toId = toId) && decide (x.type = t)

/-- Replace the first row satisfying `p` with `new` (Prisma `update` on a
unique key touches exactly the matched row). -/
def updateFirstRel (p : ObjectiveRelationship → Bool) (new : ObjectiveRelationship) :
    List ObjectiveRelationship → List ObjectiveRelationship
  | [] => []
  | x :: xs => if p x then new :: xs else x :: updateFirstRel p new xs

/-- `tx.objectiveRelationship.upsert` on the `fromId_toId_type` key.
In the update branch a `null` draft rationale/weight becomes `undefined`
in the source, i.e. the stored field is left unchanged. -/
def upsertOne (s : Store) (fromId toId : String) (r : RelationshipDraft) :
    Store × ObjectiveRelationship :=
  match s.relationships.find? (relKeyMatches fromId toId r.type) with
  | some ex =>
    let updated : ObjectiveRelationship :=
      { ex with
        rationale := (match r.rationale with | some v => some v | none => ex.rationale)
        weight := (match r.weight with | some v => some v | none => ex.weight) }
    ({ s with relationships := updateFirstRel (relKeyMatches fromId toId r.type) updated s.relationships },
      updated)
  | none =>
    let rel : ObjectiveRelationship :=
      { id := mkId s.nextId, fromId := fromId, toId := toId, type := r.type,
        rationale := r.rationale, weight := r.weight, createdAt := s.clock }
    ({ s with relationships := s.relationships ++ [rel]
              nextId := s.nextId + 1
              clock := s.clock + 1 }, rel)

/-- The relationship upsert loop: unresolved or self-referential
translations are skipped silently, everything else is upserted. -/
def upsertRels (fault : TxFault) (keyToId : List (String × String)) :
    Store → Nat → List RelationshipDraft →
    Option (Store × List ObjectiveRelationship)
  | s, _, [] => some (s, [])
  | s, i, r :: rest =>
    match resolveReference r.fromRef keyToId, resolveReference r.toRef keyToId with
    | some fromId, some toId =>
      if fromId = toId then upsertRels fault keyToId s i rest
      else if fault.rel i then none
      else
        let u := upsertOne s fromId toId r
        match upsertRels fault keyToId u.1 (i + 1) rest with
        | none => none
        | some (s2, rels) => some (s2, u.2 :: rels)
    | _, _ => upsertRels fault keyToId s i rest

/-- The transaction body: entry insert, objective inserts, relationship
upserts, in source order. -/
def runTx (fault : TxFault) (args : CreateKnowledgeGraphArgs) (s : Store) :
    Option (Store × WriteResult) :=
  if fault.entry then none
  else
    let e := insertEntry s args.rawContent args.title
    match insertObjectives fault e.2.id e.1 0 args.objectives with
    | none => none
    | some (s2, keyToId, created) =>
      match upsertRels fault keyToId s2 0 args.relationships with
      | none => none
      | some (s3, rels) =>
        some (s3, { entry := e.2, objectives := created, relationships := rels })

/-- `prisma.$transaction` semantics: commit the working store on success,
discard it (readers keep seeing the pre-call store) on failure. -/
def prismaTransaction {α : Type} (s : Store) (body : Store → Option (Store × α)) :
    Option α × Store :=
  match body s with
  | none => (none, s)
  | some (s2, a) => (some a, s2)

/-- `createKnowledgeGraphEntry`: the result (if any) and the store that
readers observe after the call. -/
def createKnowledgeGraphEntry (fault : TxFault) (args : CreateKnowledgeGraphArgs)
    (s : Store) : Option WriteResult × Store :=
  prismaTransaction s (runTx fault args)

/-! ## Snapshot/DTO Reader -/

structure RelTargetSummary where
  id : String
  text : String
  status : ObjectiveStatus
  priority : ObjectivePriority
deriving DecidableEq, Repr

/-- One entry of `related` in the DTO.  `target` is an `Option` only
because the model store is not forced to satisfy referential integrity;
the SQL join always finds the row. -/
structure ObjectiveRelationDTO where
  id : String
  type : ObjectiveRelationshipType
  rationale : Option String
  weight : Option ℚ
  target : Option RelTargetSummary
deriving DecidableEq, Repr

structure ObjectiveDTO where
  id : String
  text : String
  context : Option String
  category : Option String
  timeframe : Option String
  status : ObjectiveStatus
  priority : ObjectivePriority
  confidence : Option ℚ
  owner : Option String
  metrics : List String
  tags : List String
  sourceLabel : Option String
  sourceExcerpt : Option String
  createdAt : Nat
  updatedAt : Nat
  related : List ObjectiveRelationDTO
deriving DecidableEq, Repr

def targetSummary (s : Store) (toId : String) : Option RelTargetSummary :=
  (s.objectives.find? (fun o => decide (o.id = toId))).map
    (fun o => ⟨o.id, o.text, o.status, o.priority⟩)

/-- `mapObjectiveToDTO`: the row plus its outgoing links, each carrying
the denormalized target summary.  (`updatedAt` is not modelled
separately from `createdAt`; nothing in the source core distinguishes
them.) -/
def mapObjectiveToDTO (s : Store) (o : Objective) : ObjectiveDTO :=
  { id := o.id
    text := o.text
    context := o.context
    category := o.category
    timeframe := o.timeframe
    status := o.status
    priority := o.priority
    confidence := o.confidence
    owner := o.owner
    metrics := o.metrics
    tags := o.tags
    sourceLabel := o.sourceLabel
    sourceExcerpt := o.sourceExcerpt
    createdAt := o.createdAt
    updatedAt := o.createdAt
    related := (s.relationships.filter (fun l => decide (l.fromId = o.id))).map
      (fun l => { id := l.id, type := l.type, rationale := l.rationale,
                  weight := l.weight, target := targetSummary s l.toId }) }

/-- `orderBy: createdAt desc` as a relation on rows. -/
def moreRecent (a b : Objective) : Prop := b.createdAt ≤ a.createdAt

instance : DecidableRel moreRecent := fun a b => Nat.decLe b.createdAt a.createdAt

instance : IsTotal Objective moreRecent :=
  ⟨fun a b => (Nat.le_total b.createdAt a.createdAt).imp id id⟩

instance : IsTrans Objective moreRecent :=
  ⟨fun _ _ _ hab hbc => Nat.le_trans hbc hab⟩

def sortByCreatedDesc (l : List Objective) : List Objective :=
  List.insertionSort moreRecent l

/-- The `contains ... mode: 'insensitive'` text filter. -/
def containsSubList (needle : List Char) : List Char → Bool
  | [] => isPrefixList needle []
  | c :: t => isPrefixList needle (c :: t) || containsSubList needle t

def containsSubCI (text q : String) : Bool :=
  containsSubList (jsToLower q).data (jsToLower text).data

/-- The `where` clause of `searchObjectives`: case-insensitive text
containment or exact membership of the lower-cased query in `tags`. -/
def objMatchesQuery (q : String) (o : Objective) : Bool :=
  containsSubCI o.text q || o.tags.contains (jsToLower q)

/-- `getObjectivesWithRelations`: newest first, offset/limit, DTO map. -/
def getObjectivesWithRelations (s : Store) (limit offset : Nat) : List ObjectiveDTO :=
  (((sortByCreatedDesc s.objectives).drop offset).take limit).map (mapObjectiveToDTO s)

/-- `searchObjectives`: filter, newest first, offset/limit, DTO map. -/
def searchObjectives (s : Store) (q : String) (limit offset : Nat) : List ObjectiveDTO :=
  (((sortByCreatedDesc (s.objectives.filter (objMatchesQuery q))).drop offset).take limit).map
    (mapObjectiveToDTO s)

/-- `getObjectivesByIds` (store order; the source sends no `orderBy`). -/
def getObjectivesByIds (s : Store) (ids : List String) : List ObjectiveDTO :=
  if ids = [] then []
  else (s.objectives.filter (fun o => ids.contains o.id)).map (mapObjectiveToDTO s)

/-! ## The extract-and-store route (`POST /api/objectives/extract-and-store`)

The LLM call is an external collaborator: the route is modelled as a
function of the already-parsed extraction. -/

structure IngestResponse where
  totalInserted : Nat
  duplicatesSkipped : Nat
  relationshipsCreated : Nat
deriving DecidableEq, Repr

/-- Order-preserving dedup, as `Array.from(new Set(...))`. -/
def dedupKeepFirstGo (seen : List String) : List String → List String
  | [] => []
  | x :: xs =>
    if x ∈ seen then dedupKeepFirstGo seen xs
    else x :: dedupKeepFirstGo (x :: seen) xs

def dedupKeepFirst (l : List String) : List String := dedupKeepFirstGo [] l

/-- The extract-and-store route after LLM extraction: prepare drafts
against the current store, merge manual tags, short-circuit when there
is nothing to persist, otherwise run the Graph Writer transaction.
Returns the response (`none` for the 500 branch) and the store readers
observe afterwards. -/
def ingest (fault : TxFault) (text : String) (title : Option String)
    (manualTagsRaw : List String) (extraction : AgentGraphExtraction)
    (s : Store) : Option IngestResponse × Store :=
  let manualTags := sanitizeList manualTagsRaw true
  let drafts := prepareObjectiveDrafts extraction title (s.objectives.map (·.text))
  let draftObjs :=
    if manualTags.length > 0 then
      drafts.objectives.map (fun o => { o with tags := dedupKeepFirst (o.tags ++ manualTags) })
    else drafts.objectives
  if draftObjs = [] ∧ drafts.relationships = [] then
    (some { totalInserted := 0, duplicatesSkipped := drafts.duplicates,
            relationshipsCreated := 0 }, s)
  else
    match createKnowledgeGraphEntry fault
      { rawContent := text
        title := (match extraction.title with | some t => some t | none => title)
        objectives := draftObjs
        relationships := drafts.relationships } s with
    | (none, s2) => (none, s2)
    | (some r, s2) =>
      let inserted := getObjectivesByIds s2 (r.objectives.map (·.id))
      (some { totalInserted := inserted.length
              duplicatesSkipped := drafts.duplicates
              relationshipsCreated := r.relationships.length }, s2)

/-! ## Direct relationship routes -/

/-- Payload of `POST /api/objectives/relationships` after zod parsing
(the uuid format checks are outside the model). -/
structure CreateRelPayload where
  fromId : String
  toId : String
  type : ObjectiveRelationshipType
  rationale : Option String := none
  weight : Option ℚ := none
deriving DecidableEq, Repr

/-- The `superRefine` of `createRelationshipSchema`: a payload whose two
endpoints coincide fails validation. -/
def validCreateRelationshipPayload (p : CreateRelPayload) : Bool :=
  decide (p.fromId ≠ p.toId)

/-- Modelled from the spec: `createObjectiveRelationshipRecord` is not in
the source snapshot (only its callers are).  Per the interface
`createRelationship(...)` and the conflict taxonomy, it is a plain create
against the unique `(fromId, toId, type)` key: a duplicate key raises the
"already exists" conflict (Prisma `P2002`), modelled as `none`. -/
def createObjectiveRelationshipRecord (s : Store) (p : CreateRelPayload) :
    Option (Store × ObjectiveRelationship) :=
  if s.relationships.any (relKeyMatches p.fromId p.toId p.type) then none
  else
    let rel : ObjectiveRelationship :=
      { id := mkId s.nextId, fromId := p.fromId, toId := p.toId, type := p.type,
        rationale := p.rationale, weight := p.weight, createdAt := s.clock }
    some ({ s with relationships := s.relationships ++ [rel]
                   nextId := s.nextId + 1
                   clock := s.clock + 1 }, rel)

inductive CreateRelOutcome
  | created (r : ObjectiveRelationship)
  | validationError
  | conflict
deriving DecidableEq, Repr

/-- `POST /api/objectives/relationships`: schema validation, then the
record create; a `P2002` surfaces as 409 conflict. -/
def postRelationshipRoute (s : Store) (p : CreateRelPayload) :
    CreateRelOutcome × Store :=
  if !validCreateRelationshipPayload p then (.validationError, s)
  else
    match createObjectiveRelationshipRecord s p with
    | none => (.conflict, s)
    | some (s2, r) => (.created r, s2)

/-- Payload of `PATCH /api/objectives/relationships/:id`.  The outer
`Option` distinguishes an absent field (left unchanged) from a provided
one; for `rationale`/`weight` the inner `Option` is the provided `null`. -/
structure UpdateRelPayload where
  toId : Option String := none
  type : Option ObjectiveRelationshipType := none
  rationale : Option (Option String) := none
  weight : Option (Option ℚ) := none
deriving DecidableEq, Repr

/-- The zod `refine`: at least one field must be provided. -/
def updatePayloadNonEmpty (p : UpdateRelPayload) : Bool :=
  p.toId.isSome || p.type.isSome || p.rationale.isSome || p.weight.isSome

inductive PatchOutcome
  | ok (r : ObjectiveRelationship)
  | badRequest
  | notFound
  | conflict
deriving DecidableEq, Repr

/-- Prisma `update` data: provided fields overwrite, absent fields are
left unchanged. -/
def applyUpdate (p : UpdateRelPayload) (ex : ObjectiveRelationship) :
    ObjectiveRelationship :=
  { ex with
    toId := p.toId.getD ex.toId
    type := p.type.getD ex.type
    rationale := p.rationale.getD ex.rationale
    weight := p.weight.getD ex.weight }

/-- Modelled from the spec: `updateObjectiveRelationshipRecord` is not in
the source snapshot.  Per `updateRelationship(id, fields)` and the error
taxonomy, it updates the row with the given id (`P2025`/not-found when
absent) and respects the unique `(fromId, toId, type)` key (`P2002`/
conflict when the updated key collides with another row). -/
def updateObjectiveRelationshipRecord (s : Store) (id : String)
    (p : UpdateRelPayload) : PatchOutcome × Store :=
  match s.relationships.find? (fun x => decide (x.id = id)) with
  | none => (.notFound, s)
  | some ex =>
    let upd := applyUpdate p ex
    if s.relationships.any
        (fun x => decide (x.id ≠ id) && relKeyMatches upd.fromId upd.toId upd.type x) then
      (.conflict, s)
    else
      (.ok upd,
        { s with relationships := updateFirstRel (fun x => decide (x.id = id)) upd s.relationships })

/-- `PATCH /api/objectives/relationships/:id`: payload refinement, then
(when a new target is provided) the lookup of the existing row and the
self-loop guard, then the record update. -/
def patchRelationshipRoute (s : Store) (id : String) (p : UpdateRelPayload) :
    PatchOutcome × Store :=
  if !updatePayloadNonEmpty p then (.badRequest, s)
  else
    match p.toId with
    | some t =>
      match s.relationships.find? (fun x => decide (x.id = id)) with
      | none => (.notFound, s)
      | some ex =>
        if ex.fromId = t then (.badRequest, s)
        else updateObjectiveRelationshipRecord s id p
    | none => updateObjectiveRelationshipRecord s id p

/-! ## Store invariants -/

/-- No row of a relationship list is a self-loop. -/
def relsNoSelfLoop (l : List ObjectiveRelationship) : Prop :=
  ∀ rel ∈ l, rel.fromId ≠ rel.toId

/-- Candidates whose normalized statement is empty. -/
def normEmpty (o : AgentObjective) : Bool :=
  decide ((normalize o.statement).normalized = "")

/-- No persisted relationship is a self-loop. -/
def noSelfLoop (s : Store) : Prop :=
  ∀ rel ∈ s.relationships, rel.fromId ≠ rel.toId

/-- At most one relationship row per ordered `(fromId, toId, type)`
triple. -/
def relTripleUnique (s : Store) : Prop :=
  s.relationships.Pairwise
    (fun a b => ¬(a.fromId = b.fromId ∧ a.toId = b.toId ∧ a.type = b.type))

instance (s : Store) : Decidable (noSelfLoop s) := by
  unfold noSelfLoop; infer_instance

instance (s : Store) : Decidable (relTripleUnique s) := by
  unfold relTripleUnique; infer_instance

/-! ## Concrete scenarios used by the claims -/

/-- A stored objective row with default metadata, for concrete scenarios. -/
def testObjective (id text : String) (created : Nat) : Objective :=
  { id := id, text := text, context := none, category := none, timeframe := none,
    status := .PROPOSED, priority := .MEDIUM, confidence := none, owner := none,
    metrics := [], tags := [], sourceLabel := none, sourceExcerpt := none,
    entryId := "e0", createdAt := created }

/-- A store holding two objectives `a` and `b` and no relationships. -/
def storeAB : Store :=
  { objectives := [testObjective "a" "Alpha" 0, testObjective "b" "Beta" 1],
    relationships := [], entries := [], nextId := 0, clock := 2 }

/-- A stored SUPPORTS relationship row between `a` and `b` carrying a
rationale, for the upsert frame scenario. -/
def relRow1 : ObjectiveRelationship :=
  { id := "r1", fromId := "a", toId := "b", type := .SUPPORTS,
    rationale := some "why", weight := none, createdAt := 2 }

/-- `storeAB` with the `relRow1` relationship persisted. -/
def storeRel1 : Store := { storeAB with relationships := [relRow1], clock := 3 }

/-- Storage faults for the atomicity scenario: the second relationship
upsert sent to storage throws. -/
def failSecondRel : TxFault :=
  { entry := false, obj := fun _ => false, rel := fun i => decide (i = 1) }

/-- Ingestion arguments with one objective draft and two relationship
drafts between the pre-existing objectives. -/
def atomicityArgs : CreateKnowledgeGraphArgs :=
  { rawContent := "raw", title := none
    objectives := [{ key := "OBJ_A", text := "Gamma" }]
    relationships :=
      [{ fromRef := "existing:a", toRef := "existing:b", type := .SUPPORTS },
       { fromRef := "existing:b", toRef := "existing:a", type := .SUPPORTS }] }

/-- The candidates of the spec's dedup scenario: two byte-identical
statements under distinct batch-local keys, then a fresh one. -/
def growA : AgentObjective := { key := "OBJ_A", statement := "Grow revenue 20% in Q3" }

def growB : AgentObjective := { key := "OBJ_B", statement := "Grow revenue 20% in Q3" }

def churnC : AgentObjective := { key := "OBJ_C", statement := "Reduce churn" }

/-- The dedup scenario batch of the spec. -/
def growChurnExtraction : AgentGraphExtraction :=
  { objectives := [growA, growB, churnC] }

/-- Relationship-only ingestion arguments carrying one rationale. -/
def convergenceArgs (rationale : String) : CreateKnowledgeGraphArgs :=
  { rawContent := "raw", title := none, objectives := []
    relationships := [{ fromRef := "existing:a", toRef := "existing:b",
                        type := .SUPPORTS, rationale := some rationale, weight := none }] }

/-- Store after persisting the SUPPORTS relationship with the first
rationale. -/
def storeConv1 : Store := (createKnowledgeGraphEntry noFault (convergenceArgs "first") storeAB).2

/-- Store after the second call with a different rationale. -/
def storeConv2 : Store := (createKnowledgeGraphEntry noFault (convergenceArgs "second") storeConv1).2

/-- First idempotence-scenario extraction: one fresh statement. -/
def shipExtraction1 : AgentGraphExtraction :=
  { objectives := [{ key := "OBJ_A", statement := "Ship v2" }] }

/-- Second call: the same statement up to whitespace (two inner spaces). -/
def shipExtraction2 : AgentGraphExtraction :=
  { objectives := [{ key := "OBJ_A", statement := "Ship  v2" }] }

/-- Second call variant differing only in letter case. -/
def shipExtraction3 : AgentGraphExtraction :=
  { objectives := [{ key := "OBJ_A", statement := "ship v2" }] }

/-- Store after ingesting the first `Ship v2` call into an empty store. -/
def storeShip1 : Store := (ingest noFault "one" none [] shipExtraction1 Store.empty).2

/-! # Theorems -/

/-! ## Frame lemmas about the Graph Writer steps -/

theorem insertObjectives_frame (fault : TxFault) (entryId : String) :
    ∀ (ds : List ObjectiveDraft) (s : Store) (i : Nat) (s2 : Store)
      (m : List (String × String)) (os : List Objective),
      insertObjectives fault entryId s i ds = some (s2, m, os) →
      s2.objectives = s.objectives ++ os ∧ s2.relationships = s.relationships ∧
        s2.entries = s.entries := by
  intro ds
  induction ds with
  | nil =>
    intro s i s2 m os h
    simp only [insertObjectives, Option.some.injEq, Prod.mk.injEq] at h
    obtain ⟨h1, -, h3⟩ := h
    subst h1
    simp [← h3]
  | cons d rest ih =>
    intro s i s2 m os h
    simp only [insertObjectives] at h
    split at h
    · exact absurd h (by simp)
    · cases hrec : insertObjectives fault entryId (insertObjectiveRow s entryId d).1 (i + 1) rest with
      | none => rw [hrec] at h; exact absurd h (by simp)
      | some t =>
        obtain ⟨s3, m3, os3⟩ := t
        rw [hrec] at h
        simp only [Option.some.injEq, Prod.mk.injEq] at h
        obtain ⟨h1, -, h3⟩ := h
        subst h1
        obtain ⟨g1, g2, g3⟩ := ih _ _ _ _ _ hrec
        refine ⟨?_, by simpa [insertObjectiveRow] using g2, by simpa [insertObjectiveRow] using g3⟩
        rw [g1, ← h3]
        simp [insertObjectiveRow]

theorem upsertOne_frame (s : Store) (f t : String) (r : RelationshipDraft) :
    (upsertOne s f t r).1.objectives = s.objectives ∧
      (upsertOne s f t r).1.entries = s.entries := by
  unfold upsertOne
  cases h : s.relationships.find? (relKeyMatches f t r.type) <;> simp

theorem upsertRels_frame (fault : TxFault) (k : List (String × String)) :
    ∀ (rs : List RelationshipDraft) (s : Store) (i : Nat) (s2 : Store)
      (out : List ObjectiveRelationship),
      upsertRels fault k s i rs = some (s2, out) →
      s2.objectives = s.objectives ∧ s2.entries = s.entries := by
  intro rs
  induction rs with
  | nil =>
    intro s i s2 out h
    simp only [upsertRels, Option.some.injEq, Prod.mk.injEq] at h
    obtain ⟨h1, -⟩ := h
    subst h1
    exact ⟨rfl, rfl⟩
  | cons r rest ih =>
    intro s i s2 out h
    simp only [upsertRels] at h
    cases hf : resolveReference r.fromRef k with
    | none => rw [hf] at h; exact ih _ _ _ _ h
    | some fromId =>
      cases ht : resolveReference r.toRef k with
      | none => rw [hf, ht] at h; exact ih _ _ _ _ h
      | some toId =>
        rw [hf, ht] at h
        simp only at h
        split at h
        · exact ih _ _ _ _ h
        · split at h
          · exact absurd h (by simp)
          · cases hrec : upsertRels fault k (upsertOne s fromId toId r).1 (i + 1) rest with
            | none => rw [hrec] at h; exact absurd h (by simp)
            | some t2 =>
              obtain ⟨s3, out3⟩ := t2
              rw [hrec] at h
              simp only [Option.some.injEq, Prod.mk.injEq] at h
              obtain ⟨h1, -⟩ := h
              subst h1
              obtain ⟨g1, g2⟩ := ih _ _ _ _ hrec
              obtain ⟨u1, u2⟩ := upsertOne_frame s fromId toId r
              exact ⟨g1.trans u1, g2.trans u2⟩

/-- C1: every ingestion through the Graph Writer is atomic.  If any step
of `createKnowledgeGraphEntry` throws (entry insert, any objective
insert, any relationship upsert — e.g. a constraint violation mid-batch),
readers afterwards observe exactly the pre-call store, with no partial
objective or relationship; on success the committed store contains every
objective of the call.  The concrete scenario forces a throw on the
second relationship upsert of a call that also inserts an objective, and
the store is left unchanged. -/
theorem C1_ingestion_atomicity :
    (∀ fault args s, (createKnowledgeGraphEntry fault args s).1 = none →
      (createKnowledgeGraphEntry fault args s).2 = s)
    ∧ (∀ fault args s r, (createKnowledgeGraphEntry fault args s).1 = some r →
      (createKnowledgeGraphEntry fault args s).2.objectives = s.objectives ++ r.objectives)
    ∧ createKnowledgeGraphEntry failSecondRel atomicityArgs storeAB = (none, storeAB) := by
  refine ⟨?_, ?_, by decide⟩
  · intro fault args s h
    unfold createKnowledgeGraphEntry prismaTransaction at h ⊢
    cases hb : runTx fault args s with
    | none => simp [hb]
    | some t => rw [hb] at h; exact absurd h (by simp)
  · intro fault args s r h
    unfold createKnowledgeGraphEntry prismaTransaction at h ⊢
    cases hb : runTx fault args s with
    | none => rw [hb] at h; exact absurd h (by simp)
    | some t =>
      obtain ⟨s2, r2⟩ := t
      rw [hb] at h
      simp only [Option.some.injEq] at h
      subst h
      simp only
      unfold runTx at hb
      split at hb
      · exact absurd hb (by simp)
      · dsimp only at hb
        cases hobjs : insertObjectives fault (insertEntry s args.rawContent args.title).2.id
            (insertEntry s args.rawContent args.title).1 0 args.objectives with
        | none => rw [hobjs] at hb; exact absurd hb (by simp)
        | some t2 =>
          obtain ⟨s3, m3, os3⟩ := t2
          rw [hobjs] at hb
          dsimp only at hb
          cases hrels : upsertRels fault m3 s3 0 args.relationships with
          | none => rw [hrels] at hb; exact absurd hb (by simp)
          | some t3 =>
            obtain ⟨s4, out4⟩ := t3
            rw [hrels] at hb
            dsimp only at hb
            simp only [Option.some.injEq, Prod.mk.injEq] at hb
            obtain ⟨hb1, hb2⟩ := hb
            subst hb1
            obtain ⟨g1, -⟩ := upsertRels_frame fault m3 args.relationships s3 0 s4 out4 hrels
            obtain ⟨f1, -, -⟩ := insertObjectives_frame fault _ args.objectives _ 0 s3 m3 os3 hobjs
            rw [g1, f1, ← hb2]
            simp [insertEntry]

/-- Closed witness for C1: the failure scenario leaves the store
untouched. -/
theorem C1_ingestion_atomicity_witness :
    (createKnowledgeGraphEntry failSecondRel atomicityArgs storeAB).2 = storeAB :=
  C1_ingestion_atomicity.1 failSecondRel atomicityArgs storeAB (by decide)

/-! ## Normalizer facts -/

theorem trimChars_eq (l : List Char) :
    trimChars l = List.rdropWhile isJsWs (l.dropWhile isJsWs) := rfl

theorem trimChars_idem (l : List Char) : trimChars (trimChars l) = trimChars l := by
  rw [trimChars_eq, trimChars_eq]
  have hA : (l.dropWhile isJsWs).dropWhile isJsWs = l.dropWhile isJsWs :=
    List.dropWhile_idempotent _ _
  have hT : (List.rdropWhile isJsWs (l.dropWhile isJsWs)).dropWhile isJsWs
      = List.rdropWhile isJsWs (l.dropWhile isJsWs) := by
    obtain ⟨t, ht⟩ := List.rdropWhile_prefix isJsWs (l.dropWhile isJsWs)
    cases hT0 : List.rdropWhile isJsWs (l.dropWhile isJsWs) with
    | nil => rfl
    | cons c t2 =>
      rw [hT0] at ht
      have hc : isJsWs c = false := by
        by_contra hcc
        rw [Bool.not_eq_false] at hcc
        rw [← ht, List.cons_append, List.dropWhile_cons, if_pos hcc] at hA
        have hle := (List.dropWhile_sublist (l := t2 ++ t) isJsWs).length_le
        rw [hA] at hle
        simp only [List.length_cons, List.length_append] at hle
        omega
      rw [List.dropWhile_cons, hc]
      simp
  rw [hT, List.rdropWhile_idempotent]

theorem jsTrim_idem (s : String) : jsTrim (jsTrim s) = jsTrim s := by
  show (⟨trimChars (trimChars s.data)⟩ : String) = ⟨trimChars s.data⟩
  rw [trimChars_idem]

theorem normalize_jsTrim (s : String) : normalize (jsTrim s) = normalize s := by
  unfold normalize
  rw [jsTrim_idem]

/-- The normalized form of a draft built by `toObjectiveDraft` equals the
normalized form of the candidate statement. -/
theorem normalize_toObjectiveDraft (o : AgentObjective) (t : Option String) :
    normalize (toObjectiveDraft o t).text = normalize o.statement :=
  normalize_jsTrim o.statement

/-! ## Deduplication Filter lemmas -/

theorem dedupLoop_sublist (t : Option String) :
    ∀ (objs : List AgentObjective) (seen : List String),
      List.Sublist (dedupLoop t seen objs).1 (objs.map (fun o => toObjectiveDraft o t)) := by
  intro objs
  induction objs with
  | nil => intro seen; simp [dedupLoop]
  | cons o rest ih =>
    intro seen
    simp only [dedupLoop, List.map_cons]
    split
    · exact (ih seen).cons _
    · split
      · exact (ih seen).cons _
      · exact (ih _).cons₂ _

theorem dedupLoop_count (t : Option String) :
    ∀ (objs : List AgentObjective) (seen : List String),
      (dedupLoop t seen objs).1.length + (dedupLoop t seen objs).2
        + objs.countP normEmpty = objs.length := by
  intro objs
  induction objs with
  | nil => intro seen; simp [dedupLoop]
  | cons o rest ih =>
    intro seen
    simp only [dedupLoop, List.countP_cons, List.length_cons]
    split
    · rename_i hempty
      have he : normEmpty o = true := by simp [normEmpty, hempty]
      have := ih seen
      simp [he]
      omega
    · rename_i hempty
      have he : normEmpty o = false := by
        simp only [normEmpty, decide_eq_false_iff_not]
        exact hempty
      split
      · have := ih seen
        simp [he]
        omega
      · have := ih ((normalize o.statement).normalized :: seen)
        simp [he]
        omega

theorem dedupLoop_norms (t : Option String) :
    ∀ (objs : List AgentObjective) (seen : List String),
      (∀ d ∈ (dedupLoop t seen objs).1, (normalize d.text).normalized ∉ seen)
      ∧ ((dedupLoop t seen objs).1.map (fun d => (normalize d.text).normalized)).Nodup
      ∧ (∀ d ∈ (dedupLoop t seen objs).1, (normalize d.text).normalized ≠ "") := by
  intro objs
  induction objs with
  | nil => intro seen; simp [dedupLoop]
  | cons o rest ih =>
    intro seen
    simp only [dedupLoop]
    split
    · exact ih seen
    · split
      · exact ih seen
      · obtain ⟨ihSeen, ihNodup, ihNe⟩ := ih ((normalize o.statement).normalized :: seen)
        have hhead : (normalize (toObjectiveDraft o t).text).normalized
            = (normalize o.statement).normalized := by
          rw [normalize_toObjectiveDraft]
        refine ⟨?_, ?_, ?_⟩
        · intro d hd
          rcases List.mem_cons.mp hd with h | h
          · subst h
            rw [hhead]
            assumption
          · exact fun hmem => ihSeen d h (List.mem_cons_of_mem _ hmem)
        · rw [List.map_cons]
          refine List.nodup_cons.mpr ⟨?_, ihNodup⟩
          rw [hhead]
          intro hmem
          obtain ⟨d, hd, hde⟩ := List.mem_map.mp hmem
          exact ihSeen d hd (by rw [hde]; exact List.mem_cons_self _ _)
        · intro d hd
          rcases List.mem_cons.mp hd with h | h
          · subst h
            rw [hhead]
            assumption
          · exact ihNe d h

/-- First-wins completeness of the dedup loop: the first candidate of a
normalized class — one with a non-empty normalized form, not seeded from
the store, and such that no earlier candidate shares its normalized
form — always yields a surviving draft. -/
theorem dedupLoop_firstWins (t : Option String) :
    ∀ (pre : List AgentObjective) (seen : List String) (o : AgentObjective)
      (post : List AgentObjective),
      (normalize o.statement).normalized ≠ "" →
      (normalize o.statement).normalized ∉ seen →
      (∀ p ∈ pre, (normalize p.statement).normalized ≠ (normalize o.statement).normalized) →
      toObjectiveDraft o t ∈ (dedupLoop t seen (pre ++ o :: post)).1 := by
  intro pre
  induction pre with
  | nil =>
    intro seen o post hne hseen _
    simp only [List.nil_append, dedupLoop]
    rw [if_neg hne, if_neg hseen]
    exact List.mem_cons_self _ _
  | cons p pre2 ih =>
    intro seen o post hne hseen hpre
    have hpo : (normalize p.statement).normalized ≠ (normalize o.statement).normalized :=
      hpre p (List.mem_cons_self _ _)
    have hpre2 : ∀ x ∈ pre2,
        (normalize x.statement).normalized ≠ (normalize o.statement).normalized :=
      fun x hx => hpre x (List.mem_cons_of_mem _ hx)
    simp only [List.cons_append, dedupLoop]
    split
    · exact ih seen o post hne hseen hpre2
    · split
      · exact ih seen o post hne hseen hpre2
      · refine List.mem_cons_of_mem _ (ih _ o post hne ?_ hpre2)
        intro hmem
        rcases List.mem_cons.mp hmem with h1 | h1
        · exact hpo h1.symm
        · exact hseen h1

/-- C2: the Deduplication Filter keeps survivors in input order (they
form a sublist of the drafts of the input batch); the duplicate counter
is exact (survivors + duplicates + empty-normalized candidates partition
the batch, so empties are never counted as duplicates); within-batch
duplicates are resolved first-wins: the first candidate of each
normalized class that is non-empty and not matched by the store survives
(completeness), survivor normalized forms are pairwise distinct and
avoid the store-seeded seen set, so the unique survivor of each class is
exactly its first occurrence; and on the concrete batch of the spec the
survivors are the drafts of OBJ_A and OBJ_C — the first of the two
byte-identical candidates, not OBJ_B — with 1 reported duplicate. -/
theorem C2_dedup_order_and_count :
    (∀ (extraction : AgentGraphExtraction) (title : Option String)
        (storeTexts : List String),
      List.Sublist (prepareObjectiveDrafts extraction title storeTexts).objectives
        (extraction.objectives.map (fun o => toObjectiveDraft o title)))
    ∧ (∀ (extraction : AgentGraphExtraction) (title : Option String)
        (storeTexts : List String),
      (prepareObjectiveDrafts extraction title storeTexts).objectives.length
        + (prepareObjectiveDrafts extraction title storeTexts).duplicates
        + extraction.objectives.countP normEmpty
        = extraction.objectives.length)
    ∧ (∀ (extraction : AgentGraphExtraction) (title : Option String)
        (storeTexts : List String),
      ((prepareObjectiveDrafts extraction title storeTexts).objectives.map
          (fun d => (normalize d.text).normalized)).Nodup
      ∧ (∀ d ∈ (prepareObjectiveDrafts extraction title storeTexts).objectives,
          (normalize d.text).normalized ≠ "")
      ∧ (∀ d ∈ (prepareObjectiveDrafts extraction title storeTexts).objectives,
          (normalize d.text).normalized ∉ existingSeen extraction storeTexts))
    ∧ (∀ (extraction : AgentGraphExtraction) (title : Option String)
        (storeTexts : List String) (pre : List AgentObjective)
        (o : AgentObjective) (post : List AgentObjective),
      extraction.objectives = pre ++ o :: post →
      (normalize o.statement).normalized ≠ "" →
      (normalize o.statement).normalized ∉ existingSeen extraction storeTexts →
      (∀ p ∈ pre,
        (normalize p.statement).normalized ≠ (normalize o.statement).normalized) →
      toObjectiveDraft o title ∈ (prepareObjectiveDrafts extraction title storeTexts).objectives)
    ∧ ((prepareObjectiveDrafts growChurnExtraction none []).objectives
        = [toObjectiveDraft growA none, toObjectiveDraft churnC none]
      ∧ (prepareObjectiveDrafts growChurnExtraction none []).objectives.map (·.key)
        = ["OBJ_A", "OBJ_C"]
      ∧ (prepareObjectiveDrafts growChurnExtraction none []).duplicates = 1) := by
  refine ⟨?_, ?_, ?_, ?_, by decide⟩
  · intro extraction title storeTexts
    exact dedupLoop_sublist title extraction.objectives _
  · intro extraction title storeTexts
    exact dedupLoop_count title extraction.objectives _
  · intro extraction title storeTexts
    obtain ⟨h1, h2, h3⟩ :=
      dedupLoop_norms title extraction.objectives (existingSeen extraction storeTexts)
    exact ⟨h2, h3, h1⟩
  · intro extraction title storeTexts pre o post heq hne hseen hpre
    show toObjectiveDraft o title ∈
      (dedupLoop title (existingSeen extraction storeTexts) extraction.objectives).1
    rw [heq]
    exact dedupLoop_firstWins title pre _ o post hne hseen hpre

/-- Closed witness for C2: applying the first-wins completeness conjunct
to the first of the two byte-identical candidates of the spec's batch
shows its draft — under key OBJ_A — among the survivors. -/
theorem C2_dedup_order_and_count_witness :
    toObjectiveDraft growA none ∈
      (prepareObjectiveDrafts growChurnExtraction none []).objectives :=
  C2_dedup_order_and_count.2.2.2.1 growChurnExtraction none [] [] growA [growB, churnC]
    rfl (by decide) (by decide) (by simp)

/-! ## Reference Resolver lemmas -/

theorem isPrefixList_append : ∀ (a b : List Char), isPrefixList a (a ++ b) = true := by
  intro a
  induction a with
  | nil => intro b; rfl
  | cons c t ih => intro b; simp [isPrefixList, ih]

/-- C5: the relationship filter of `prepareObjectiveDrafts` keeps a draft
exactly when it arises from an extraction candidate whose type string
classifies (drafts with unclassifiable types never arise) and both
endpoints are valid, i.e. tagged `existing:` or a surviving batch-local
key; a candidate whose type cannot be classified yields no draft at all;
an `existing:` reference resolves to the identifier with the prefix
stripped; the type string "unblocks" classifies as DEPENDS_ON; and a
draft whose endpoints resolve identically is skipped by the writer's
upsert loop exactly as if it had been dropped. -/
theorem C5_reference_resolver :
    (∀ (extraction : AgentGraphExtraction) (title : Option String)
        (storeTexts : List String) (r : RelationshipDraft),
      r ∈ (prepareObjectiveDrafts extraction title storeTexts).relationships ↔
        ((∃ a ∈ extraction.relationships, toRelationshipDraft a = some r)
          ∧ refValid ((prepareObjectiveDrafts extraction title storeTexts).objectives.map
              (·.key)) r.fromRef = true
          ∧ refValid ((prepareObjectiveDrafts extraction title storeTexts).objectives.map
              (·.key)) r.toRef = true))
    ∧ (∀ a : AgentRelationship,
        parseRelationshipType a.type = none → toRelationshipDraft a = none)
    ∧ (∀ (id : String) (keyToId : List (String × String)),
        resolveReference ("existing:" ++ id) keyToId = some id)
    ∧ parseRelationshipType (some "unblocks") = some .DEPENDS_ON
    ∧ (∀ (fault : TxFault) (k : List (String × String)) (s : Store) (i : Nat)
        (r : RelationshipDraft) (rest : List RelationshipDraft),
      resolveReference r.fromRef k = resolveReference r.toRef k →
        upsertRels fault k s i (r :: rest) = upsertRels fault k s i rest) := by
  refine ⟨?_, ?_, ?_, by decide, ?_⟩
  · intro extraction title storeTexts r
    unfold prepareObjectiveDrafts
    simp only [List.mem_filter, List.mem_filterMap, Bool.and_eq_true]
  · intro a h
    unfold toRelationshipDraft
    rw [h]
  · intro id keyToId
    obtain ⟨d⟩ := id
    have hdata : ("existing:" ++ String.mk d).data = "existing:".data ++ d :=
      String.data_append _ _
    have hne : ¬("existing:" ++ String.mk d) = "" := by
      intro h
      have := congrArg String.data h
      rw [hdata] at this
      simp at this
    have hsw : strStartsWith ("existing:" ++ String.mk d) "existing:" = true := by
      unfold strStartsWith
      rw [hdata]
      exact isPrefixList_append _ _
    unfold resolveReference
    rw [if_neg hne, if_pos hsw]
    unfold strDrop
    rw [hdata]
    have h9 : ("existing:".data).length = 9 := by decide
    rw [show (9 : Nat) = ("existing:".data).length from h9.symm, List.drop_left]
  · intro fault k s i r rest h
    cases hf : resolveReference r.fromRef k with
    | none =>
      rw [hf] at h
      simp only [upsertRels]
      rw [hf, ← h]
    | some x =>
      rw [hf] at h
      simp only [upsertRels]
      rw [hf, ← h]
      simp

/-- Closed witness for C5: a relationship whose endpoints both resolve to
objective `a` is skipped by the upsert loop. -/
theorem C5_reference_resolver_witness :
    upsertRels noFault [] storeAB 0
      [{ fromRef := "existing:a", toRef := "existing:a", type := .SUPPORTS }]
    = upsertRels noFault [] storeAB 0 [] :=
  C5_reference_resolver.2.2.2.2 noFault [] storeAB 0 _ [] (by decide)

/-! ## Triple-uniqueness preservation -/

theorem relKeyMatches_iff (f t : String) (ty : ObjectiveRelationshipType)
    (x : ObjectiveRelationship) :
    relKeyMatches f t ty x = true ↔ (x.fromId = f ∧ x.toId = t ∧ x.type = ty) := by
  simp [relKeyMatches, and_assoc]

theorem mem_updateFirstRel (p : ObjectiveRelationship → Bool)
    (new : ObjectiveRelationship) :
    ∀ (l : List ObjectiveRelationship) (y : ObjectiveRelationship),
      y ∈ updateFirstRel p new l → y = new ∨ y ∈ l := by
  intro l
  induction l with
  | nil => intro y h; exact absurd h (by simp [updateFirstRel])
  | cons x xs ih =>
    intro y h
    simp only [updateFirstRel] at h
    split at h
    · rcases List.mem_cons.mp h with h1 | h1
      · exact Or.inl h1
      · exact Or.inr (List.mem_cons_of_mem _ h1)
    · rcases List.mem_cons.mp h with h1 | h1
      · exact Or.inr (h1 ▸ List.mem_cons_self _ _)
      · rcases ih y h1 with h2 | h2
        · exact Or.inl h2
        · exact Or.inr (List.mem_cons_of_mem _ h2)

theorem pairwise_updateFirstRel (f t : String) (ty : ObjectiveRelationshipType)
    (new : ObjectiveRelationship)
    (h1 : new.fromId = f) (h2 : new.toId = t) (h3 : new.type = ty) :
    ∀ l : List ObjectiveRelationship,
      l.Pairwise (fun a b => ¬(a.fromId = b.fromId ∧ a.toId = b.toId ∧ a.type = b.type)) →
      (updateFirstRel (relKeyMatches f t ty) new l).Pairwise
        (fun a b => ¬(a.fromId = b.fromId ∧ a.toId = b.toId ∧ a.type = b.type)) := by
  intro l
  induction l with
  | nil => intro h; simp [updateFirstRel]
  | cons x xs ih =>
    intro hp
    rw [List.pairwise_cons] at hp
    obtain ⟨hx, hxs⟩ := hp
    simp only [updateFirstRel]
    split
    · rename_i hmatch
      obtain ⟨k1, k2, k3⟩ := (relKeyMatches_iff f t ty x).mp hmatch
      rw [List.pairwise_cons]
      refine ⟨?_, hxs⟩
      intro y hy hkeys
      exact hx y hy
        ⟨k1.trans (h1.symm.trans hkeys.1), k2.trans (h2.symm.trans hkeys.2.1),
          k3.trans (h3.symm.trans hkeys.2.2)⟩
    · rename_i hnomatch
      rw [List.pairwise_cons]
      constructor
      · intro y hy
        rcases mem_updateFirstRel _ _ xs y hy with hnew | hold
        · subst hnew
          intro hkeys
          exact hnomatch ((relKeyMatches_iff f t ty x).mpr
            ⟨hkeys.1.trans h1, hkeys.2.1.trans h2, hkeys.2.2.trans h3⟩)
        · exact hx y hold
      · exact ih hxs

theorem upsertOne_unique (s : Store) (f t : String) (r : RelationshipDraft) :
    relTripleUnique s → relTripleUnique (upsertOne s f t r).1 := by
  intro h
  unfold relTripleUnique at h ⊢
  unfold upsertOne
  cases hfind : s.relationships.find? (relKeyMatches f t r.type) with
  | some ex =>
    simp only
    have hex := List.find?_some hfind
    obtain ⟨k1, k2, k3⟩ := (relKeyMatches_iff f t r.type ex).mp hex
    exact pairwise_updateFirstRel f t r.type
      { ex with
        rationale := (match r.rationale with | some v => some v | none => ex.rationale)
        weight := (match r.weight with | some v => some v | none => ex.weight) }
      k1 k2 k3 s.relationships h
  | none =>
    simp only
    rw [List.pairwise_append]
    refine ⟨h, by simp, ?_⟩
    intro a ha b hb
    have hafalse : relKeyMatches f t r.type a = false := by
      have := List.find?_eq_none.mp hfind a ha
      simpa using this
    rcases List.mem_singleton.mp hb with hb1
    subst hb1
    intro hkeys
    have : relKeyMatches f t r.type a = true :=
      (relKeyMatches_iff f t r.type a).mpr ⟨hkeys.1, hkeys.2.1, hkeys.2.2⟩
    rw [hafalse] at this
    exact absurd this (by simp)

theorem upsertRels_unique (fault : TxFault) (k : List (String × String)) :
    ∀ (rs : List RelationshipDraft) (s : Store) (i : Nat) (s2 : Store)
      (out : List ObjectiveRelationship),
      upsertRels fault k s i rs = some (s2, out) →
      relTripleUnique s → relTripleUnique s2 := by
  intro rs
  induction rs with
  | nil =>
    intro s i s2 out h hu
    simp only [upsertRels, Option.some.injEq, Prod.mk.injEq] at h
    obtain ⟨h1, -⟩ := h
    exact h1 ▸ hu
  | cons r rest ih =>
    intro s i s2 out h hu
    simp only [upsertRels] at h
    cases hf : resolveReference r.fromRef k with
    | none => rw [hf] at h; exact ih _ _ _ _ h hu
    | some fromId =>
      cases ht : resolveReference r.toRef k with
      | none => rw [hf, ht] at h; exact ih _ _ _ _ h hu
      | some toId =>
        rw [hf, ht] at h
        simp only at h
        split at h
        · exact ih _ _ _ _ h hu
        · split at h
          · exact absurd h (by simp)
          · cases hrec : upsertRels fault k (upsertOne s fromId toId r).1 (i + 1) rest with
            | none => rw [hrec] at h; exact absurd h (by simp)
            | some t2 =>
              obtain ⟨s3, out3⟩ := t2
              rw [hrec] at h
              simp only [Option.some.injEq, Prod.mk.injEq] at h
              obtain ⟨h1, -⟩ := h
              subst h1
              exact ih _ _ _ _ hrec (upsertOne_unique s fromId toId r hu)

theorem createKnowledgeGraphEntry_unique (fault : TxFault)
    (args : CreateKnowledgeGraphArgs) (s : Store) :
    relTripleUnique s → relTripleUnique (createKnowledgeGraphEntry fault args s).2 := by
  intro hu
  unfold createKnowledgeGraphEntry prismaTransaction
  cases hb : runTx fault args s with
  | none => exact hu
  | some t =>
    obtain ⟨s2, r2⟩ := t
    simp only
    unfold runTx at hb
    split at hb
    · exact absurd hb (by simp)
    · dsimp only at hb
      cases hobjs : insertObjectives fault (insertEntry s args.rawContent args.title).2.id
          (insertEntry s args.rawContent args.title).1 0 args.objectives with
      | none => rw [hobjs] at hb; exact absurd hb (by simp)
      | some t2 =>
        obtain ⟨s3, m3, os3⟩ := t2
        rw [hobjs] at hb
        dsimp only at hb
        cases hrels : upsertRels fault m3 s3 0 args.relationships with
        | none => rw [hrels] at hb; exact absurd hb (by simp)
        | some t3 =>
          obtain ⟨s4, out4⟩ := t3
          rw [hrels] at hb
          dsimp only at hb
          simp only [Option.some.injEq, Prod.mk.injEq] at hb
          obtain ⟨hb1, -⟩ := hb
          subst hb1
          have hu3 : relTripleUnique s3 := by
            obtain ⟨-, hrel, -⟩ := insertObjectives_frame fault _ args.objectives _ 0 s3 m3 os3 hobjs
            unfold relTripleUnique at hu ⊢
            rw [hrel]
            exact hu
          exact upsertRels_unique fault m3 args.relationships s3 0 s4 out4 hrels hu3

theorem postRelationshipRoute_unique (s : Store) (p : CreateRelPayload) :
    relTripleUnique s → relTripleUnique (postRelationshipRoute s p).2 := by
  intro hu
  unfold postRelationshipRoute
  split
  · exact hu
  · cases hrec : createObjectiveRelationshipRecord s p with
    | none => exact hu
    | some t =>
      obtain ⟨s2, rel⟩ := t
      dsimp only
      unfold createObjectiveRelationshipRecord at hrec
      split at hrec
      · exact absurd hrec (by simp)
      · rename_i hnone
        simp only [Option.some.injEq, Prod.mk.injEq] at hrec
        obtain ⟨h1, -⟩ := hrec
        rw [← h1]
        unfold relTripleUnique at hu ⊢
        simp only
        rw [List.pairwise_append]
        refine ⟨hu, by simp, ?_⟩
        intro a ha b hb
        rcases List.mem_singleton.mp hb with hb1
        subst hb1
        intro hkeys
        apply hnone
        rw [List.any_eq_true]
        exact ⟨a, ha, (relKeyMatches_iff _ _ _ a).mpr ⟨hkeys.1, hkeys.2.1, hkeys.2.2⟩⟩

/-- C3: at most one relationship row exists per ordered
`(source, target, type)` triple — the invariant is preserved by the
Graph Writer's upsert loop and by the direct create route, which refuses
duplicate keys — and running the Graph Writer's relationship-create path
twice with the same triple but different rationales leaves exactly one
stored row, updated in place (same row id), whose rationale is the one
of the second call. -/
theorem C3_upsert_convergence :
    (∀ (fault : TxFault) (args : CreateKnowledgeGraphArgs) (s : Store),
      relTripleUnique s → relTripleUnique (createKnowledgeGraphEntry fault args s).2)
    ∧ (∀ (s : Store) (p : CreateRelPayload),
      relTripleUnique s → relTripleUnique (postRelationshipRoute s p).2)
    ∧ (storeConv1.relationships.map (fun r => (r.fromId, r.toId, r.type, r.rationale))
        = [("a", "b", ObjectiveRelationshipType.SUPPORTS, some "first")]
      ∧ storeConv2.relationships.map (fun r => (r.fromId, r.toId, r.type, r.rationale))
        = [("a", "b", ObjectiveRelationshipType.SUPPORTS, some "second")]
      ∧ storeConv2.relationships.map (·.id) = storeConv1.relationships.map (·.id)) :=
  ⟨createKnowledgeGraphEntry_unique, postRelationshipRoute_unique, by decide⟩

/-- Closed witness for C3: the two-call convergence store still satisfies
triple-uniqueness, through the preservation theorem applied at the
concrete scenario. -/
theorem C3_upsert_convergence_witness : relTripleUnique storeConv2 :=
  C3_upsert_convergence.1 noFault (convergenceArgs "second") storeConv1 (by decide)

/-! ## Self-loop preservation -/

theorem upsertOne_selfloop (s : Store) (f t : String) (r : RelationshipDraft)
    (hft : f ≠ t) (h : relsNoSelfLoop s.relationships) :
    relsNoSelfLoop (upsertOne s f t r).1.relationships := by
  unfold upsertOne
  cases hfind : s.relationships.find? (relKeyMatches f t r.type) with
  | some ex =>
    simp only
    intro rel hrel
    rcases mem_updateFirstRel _ _ s.relationships rel hrel with hnew | hold
    · subst hnew
      have hexmem := List.mem_of_find?_eq_some hfind
      exact h ex hexmem
    · exact h rel hold
  | none =>
    simp only
    intro rel hrel
    rcases List.mem_append.mp hrel with hold | hnew
    · exact h rel hold
    · rcases List.mem_singleton.mp hnew with h1
      subst h1
      exact hft

theorem upsertRels_selfloop (fault : TxFault) (k : List (String × String)) :
    ∀ (rs : List RelationshipDraft) (s : Store) (i : Nat) (s2 : Store)
      (out : List ObjectiveRelationship),
      upsertRels fault k s i rs = some (s2, out) →
      relsNoSelfLoop s.relationships → relsNoSelfLoop s2.relationships := by
  intro rs
  induction rs with
  | nil =>
    intro s i s2 out h hu
    simp only [upsertRels, Option.some.injEq, Prod.mk.injEq] at h
    obtain ⟨h1, -⟩ := h
    exact h1 ▸ hu
  | cons r rest ih =>
    intro s i s2 out h hu
    simp only [upsertRels] at h
    cases hf : resolveReference r.fromRef k with
    | none => rw [hf] at h; exact ih _ _ _ _ h hu
    | some fromId =>
      cases ht : resolveReference r.toRef k with
      | none => rw [hf, ht] at h; exact ih _ _ _ _ h hu
      | some toId =>
        rw [hf, ht] at h
        simp only at h
        split at h
        · exact ih _ _ _ _ h hu
        · rename_i hne
          split at h
          · exact absurd h (by simp)
          · cases hrec : upsertRels fault k (upsertOne s fromId toId r).1 (i + 1) rest with
            | none => rw [hrec] at h; exact absurd h (by simp)
            | some t2 =>
              obtain ⟨s3, out3⟩ := t2
              rw [hrec] at h
              simp only [Option.some.injEq, Prod.mk.injEq] at h
              obtain ⟨h1, -⟩ := h
              subst h1
              exact ih _ _ _ _ hrec (upsertOne_selfloop s fromId toId r hne hu)

theorem createKnowledgeGraphEntry_selfloop (fault : TxFault)
    (args : CreateKnowledgeGraphArgs) (s : Store) :
    noSelfLoop s → noSelfLoop (createKnowledgeGraphEntry fault args s).2 := by
  intro hu
  unfold noSelfLoop at hu ⊢
  unfold createKnowledgeGraphEntry prismaTransaction
  cases hb : runTx fault args s with
  | none => exact hu
  | some t =>
    obtain ⟨s2, r2⟩ := t
    simp only
    unfold runTx at hb
    split at hb
    · exact absurd hb (by simp)
    · dsimp only at hb
      cases hobjs : insertObjectives fault (insertEntry s args.rawContent args.title).2.id
          (insertEntry s args.rawContent args.title).1 0 args.objectives with
      | none => rw [hobjs] at hb; exact absurd hb (by simp)
      | some t2 =>
        obtain ⟨s3, m3, os3⟩ := t2
        rw [hobjs] at hb
        dsimp only at hb
        cases hrels : upsertRels fault m3 s3 0 args.relationships with
        | none => rw [hrels] at hb; exact absurd hb (by simp)
        | some t3 =>
          obtain ⟨s4, out4⟩ := t3
          rw [hrels] at hb
          dsimp only at hb
          simp only [Option.some.injEq, Prod.mk.injEq] at hb
          obtain ⟨hb1, -⟩ := hb
          subst hb1
          have hu3 : relsNoSelfLoop s3.relationships := by
            obtain ⟨-, hrel, -⟩ := insertObjectives_frame fault _ args.objectives _ 0 s3 m3 os3 hobjs
            rw [hrel]
            exact hu
          exact upsertRels_selfloop fault m3 args.relationships s3 0 s4 out4 hrels hu3

theorem patchRelationshipRoute_selfloop (s : Store) (id : String)
    (p : UpdateRelPayload) :
    noSelfLoop s → noSelfLoop (patchRelationshipRoute s id p).2 := by
  intro hu
  unfold noSelfLoop at hu ⊢
  have hrec : ∀ hguard : ∀ ex ∈ s.relationships.find? (fun x => decide (x.id = id)),
      (applyUpdate p ex).fromId ≠ (applyUpdate p ex).toId,
      ∀ rel ∈ (updateObjectiveRelationshipRecord s id p).2.relationships,
        rel.fromId ≠ rel.toId := by
    intro hguard
    unfold updateObjectiveRelationshipRecord
    cases hfind : s.relationships.find? (fun x => decide (x.id = id)) with
    | none => exact hu
    | some ex =>
      dsimp only
      split
      · exact hu
      · intro rel hrel
        rcases mem_updateFirstRel _ _ s.relationships rel hrel with hnew | hold
        · subst hnew
          exact hguard ex (by rw [hfind]; exact Option.mem_some_iff.mpr rfl)
        · exact hu rel hold
  unfold patchRelationshipRoute
  split
  · exact hu
  · cases hto : p.toId with
    | none =>
      apply hrec
      intro ex hex
      have hexmem := List.mem_of_find?_eq_some (Option.mem_def.mp hex)
      have : (applyUpdate p ex).toId = ex.toId := by
        unfold applyUpdate
        simp [hto]
      rw [this]
      exact hu ex hexmem
    | some t =>
      cases hfind : s.relationships.find? (fun x => decide (x.id = id)) with
      | none => exact hu
      | some ex =>
        dsimp only
        split
        · exact hu
        · rename_i hne
          apply hrec
          intro ex2 hex2
          rw [hfind] at hex2
          have heq : ex = ex2 := by simpa using hex2
          subst heq
          have h1 : (applyUpdate p ex).toId = t := by
            unfold applyUpdate
            simp [hto]
          have h2 : (applyUpdate p ex).fromId = ex.fromId := rfl
          rw [h1, h2]
          exact hne

/-- C4: no operation persists a self-loop.  The Graph Writer preserves
the no-self-loop invariant (a draft resolving to identical endpoints is
skipped, and upsert updates keep the stored endpoints); the direct
create route rejects a payload whose source equals its target before any
storage call; the update route rejects a new target equal to the
existing row's source; and the update path as a whole also preserves the
invariant. -/
theorem C4_no_self_loops :
    (∀ (fault : TxFault) (args : CreateKnowledgeGraphArgs) (s : Store),
      noSelfLoop s → noSelfLoop (createKnowledgeGraphEntry fault args s).2)
    ∧ (∀ (s : Store) (p : CreateRelPayload), p.fromId = p.toId →
      postRelationshipRoute s p = (.validationError, s))
    ∧ (∀ (s : Store) (id : String) (p : UpdateRelPayload)
        (ex : ObjectiveRelationship),
      s.relationships.find? (fun x => decide (x.id = id)) = some ex →
      p.toId = some ex.fromId →
      patchRelationshipRoute s id p = (.badRequest, s))
    ∧ (∀ (s : Store) (id : String) (p : UpdateRelPayload),
      noSelfLoop s → noSelfLoop (patchRelationshipRoute s id p).2) := by
  refine ⟨createKnowledgeGraphEntry_selfloop, ?_, ?_, patchRelationshipRoute_selfloop⟩
  · intro s p h
    unfold postRelationshipRoute
    rw [if_pos]
    simp [validCreateRelationshipPayload, h]
  · intro s id p ex hfind hto
    unfold patchRelationshipRoute
    rw [if_neg]
    · rw [hto, hfind]
      dsimp only
      rw [if_pos rfl]
    · simp [updatePayloadNonEmpty, hto]

/-- Closed witness for C4: the atomicity-scenario ingestion on the
two-objective store keeps the store free of self-loops. -/
theorem C4_no_self_loops_witness :
    noSelfLoop (createKnowledgeGraphEntry noFault atomicityArgs storeAB).2 :=
  C4_no_self_loops.1 noFault atomicityArgs storeAB (by decide)

/-! ## Confidence and weight parsing (C6) -/

/-- Counterexample to C6 as stated: the claim says every confidence or
weight value greater than 1 is divided by 100 before clamping.  For the
numeric input 3/2 that would store 3/200 (which clamping leaves
unchanged), but both `parseWeight` and `parseConfidence` store 1: the
division by 100 never happens on the numeric path, nor anywhere in
`parseWeight`. -/
theorem C6_percentage_counterexample :
    (mkRat 3 2 : ℚ) > 1
    ∧ parseWeight (.num (.val (mkRat 3 2))) = some 1
    ∧ parseConfidence (.num (.val (mkRat 3 2))) = some 1
    ∧ (mkRat 3 2 : ℚ) / 100 = mkRat 3 200
    ∧ clamp (.val (mkRat 3 200)) = mkRat 3 200
    ∧ (mkRat 3 200 : ℚ) ≠ 1 := by
  refine ⟨by decide, by decide, by decide, ?_, by decide, by decide⟩
  rw [Rat.mkRat_eq_div, Rat.mkRat_eq_div]
  norm_num

/-- `qDiv100` is honest division by 100. -/
theorem qDiv100_eq (p : ℚ) : qDiv100 p = p / 100 := by
  unfold qDiv100
  rw [Rat.mkRat_eq_div]
  push_cast
  rw [← div_div, Rat.num_div_den]

/-- C6 amended: out-of-range values are clamped into [0,1] (150 stores
as 1, -5 as 0, 0.42 unchanged); the percentage division by 100 applies
only to confidence values parsed from strings whose parsed value exceeds
1, while numeric confidences and all weights — numeric or string — store
exactly the clamp of the (parsed) value, with no percentage scaling
anywhere in `parseWeight` (witnessed distinguishably at the string
"1.5", which stores 1, not 1.5/100); and non-numeric or unparseable
values (including a NaN number, whose stringification fails to parse)
become absent rather than zero. -/
theorem C6_clamping :
    parseConfidence (.num (.val (mkRat 150 1))) = some 1
    ∧ parseConfidence (.num (.val (mkRat (-5) 1))) = some 0
    ∧ parseConfidence (.num (.val (mkRat 21 50))) = some (mkRat 21 50)
    ∧ parseWeight (.num (.val (mkRat 150 1))) = some 1
    ∧ parseWeight (.num (.val (mkRat (-5) 1))) = some 0
    ∧ parseWeight (.num (.val (mkRat 21 50))) = some (mkRat 21 50)
    ∧ (∀ q : ℚ, parseConfidence (.num (.val q)) = some (clamp (.val q))
        ∧ parseWeight (.num (.val q)) = some (clamp (.val q)))
    ∧ (∀ q : ℚ, clamp (.val q) = if q < 0 then 0 else if q > 1 then 1 else q)
    ∧ (∀ (s : String) (p : ℚ), jsParseFloat s = .val p →
        parseWeight (.str s) = some (if p < 0 then 0 else if p > 1 then 1 else p))
    ∧ (∀ (s : String) (p : ℚ),
        jsParseFloat ⟨s.data.filter (fun c => c.isDigit || c = '.')⟩ = .val p →
        parseConfidence (.str s) =
          some (if p > 1 then
                  (if p / 100 < 0 then 0 else if p / 100 > 1 then 1 else p / 100)
                else if p < 0 then 0 else if p > 1 then 1 else p))
    ∧ (jsParseFloat "1.5" = .val (mkRat 3 2)
      ∧ parseWeight (.str "1.5") = some 1
      ∧ (mkRat 3 2 : ℚ) / 100 ≠ 1)
    ∧ parseConfidence (.str "42") = some (mkRat 21 50)
    ∧ parseConfidence (.str "0.42") = some (mkRat 21 50)
    ∧ parseWeight (.str "150") = some 1
    ∧ parseConfidence .absent = none
    ∧ parseWeight .absent = none
    ∧ parseConfidence (.str "abc") = none
    ∧ parseWeight (.str "abc") = none
    ∧ parseConfidence (.num .nan) = none
    ∧ parseWeight (.num .nan) = none
    ∧ clamp .nan = 0 := by
  refine ⟨by decide, by decide, by decide, by decide, by decide, by decide,
    fun q => ⟨rfl, rfl⟩, fun q => rfl, ?_, ?_,
    ⟨by decide, by decide, ?_⟩,
    by decide, by decide, by decide, rfl, rfl, by decide, by decide,
    by decide, by decide, rfl⟩
  · intro s p h
    show parseWeightStr s = _
    unfold parseWeightStr
    rw [h]
    rfl
  · intro s p h
    show parseConfidenceStr s = _
    unfold parseConfidenceStr
    dsimp only
    rw [h]
    dsimp only
    rw [qDiv100_eq]
    rfl
  · rw [Rat.mkRat_eq_div]
    norm_num

/-- Closed witness for C6: the universal weight-string conjunct applied
at "1.5" — a parsed value above 1 — stores the direct clamp 1, not the
percentage 0.015. -/
theorem C6_clamping_witness :
    parseWeight (.str "1.5")
      = some (if (mkRat 3 2 : ℚ) < 0 then 0 else if (mkRat 3 2 : ℚ) > 1 then 1
              else mkRat 3 2) :=
  C6_clamping.2.2.2.2.2.2.2.2.1 "1.5" (mkRat 3 2) (by decide)

/-! ## Status and priority classification (C7) -/

/-- C7: status and priority classification is deterministic over trimmed,
case-normalized input; the recognized synonyms map as specified;
unrecognized strings default to PROPOSED (status) and MEDIUM (priority);
and an absent status or priority is persisted by the Graph Writer as
PROPOSED respectively MEDIUM. -/
theorem C7_enum_classification :
    parseStatus (some "in progress") = some .ACTIVE
    ∧ parseStatus (some "active") = some .ACTIVE
    ∧ parseStatus (some "done") = some .COMPLETE
    ∧ parseStatus (some "complete") = some .COMPLETE
    ∧ parseStatus (some "blocked") = some .BLOCKED
    ∧ parseStatus (some "on hold") = some .BLOCKED
    ∧ parseStatus (some "planned") = some .PLANNED
    ∧ parseStatus (some "planning") = some .PLANNED
    ∧ parseStatus (some "someday") = some .PROPOSED
    ∧ parseStatus (some "  On Hold  ") = some .BLOCKED
    ∧ parseStatus none = none
    ∧ parsePriority (some "whatever") = some .MEDIUM
    ∧ parsePriority none = none
    ∧ (∀ (s : Store) (entryId : String) (d : ObjectiveDraft),
        (insertObjectiveRow s entryId d).2.status = d.status.getD .PROPOSED
        ∧ (insertObjectiveRow s entryId d).2.priority = d.priority.getD .MEDIUM) := by
  refine ⟨by decide, by decide, by decide, by decide, by decide, by decide, by decide,
    by decide, by decide, by decide, rfl, by decide, rfl, fun s entryId d => ⟨rfl, rfl⟩⟩

/-! ## Cross-call deduplication (C8) -/

/-- C8 fails on the code: cross-call deduplication matches the store by
case-insensitive equality of the *trimmed original* text, not of the
whitespace-collapsed normalized form.  Ingesting "Ship v2" and then
"Ship  v2" (two inner spaces) — equal normalized forms — stores a second
objective and reports 0 duplicates, violating the claimed idempotence;
the case-only variant "ship v2" is correctly deduplicated. -/
theorem C8_crosscall_dedup_bug :
    (normalize "Ship v2").normalized = (normalize "Ship  v2").normalized
    ∧ storeShip1.objectives.map (·.text) = ["Ship v2"]
    ∧ ((ingest noFault "two" none [] shipExtraction2 storeShip1).1.map
        (·.duplicatesSkipped)) = some 0
    ∧ (ingest noFault "two" none [] shipExtraction2 storeShip1).2.objectives.length = 2
    ∧ ((ingest noFault "three" none [] shipExtraction3 storeShip1).1.map
        (·.duplicatesSkipped)) = some 1
    ∧ (ingest noFault "three" none [] shipExtraction3 storeShip1).2.objectives.length = 1
    := by decide

/-! ## Snapshot/DTO Reader ordering and search semantics (C9) -/

theorem sortByCreatedDesc_pairwise (l : List Objective) :
    (sortByCreatedDesc l).Pairwise moreRecent :=
  List.sorted_insertionSort moreRecent l

theorem sortByCreatedDesc_mem (l : List Objective) (x : Objective) :
    x ∈ sortByCreatedDesc l ↔ x ∈ l :=
  List.mem_insertionSort moreRecent

theorem sortByCreatedDesc_length (l : List Objective) :
    (sortByCreatedDesc l).length = l.length :=
  List.length_insertionSort moreRecent l

/-- C9: list and search results are ordered most-recently-created first
under any offset/limit pagination, and — when the pagination window
covers the whole store — search returns exactly the objectives whose
text contains the query case-insensitively or whose (lower-cased) tag
set contains the lower-cased query, while the plain list returns exactly
the stored objectives, both mapped to their denormalized DTOs. -/
theorem C9_ordering_and_search :
    (∀ (s : Store) (q : String) (limit offset : Nat),
      (searchObjectives s q limit offset).Pairwise
        (fun a b => b.createdAt ≤ a.createdAt))
    ∧ (∀ (s : Store) (limit offset : Nat),
      (getObjectivesWithRelations s limit offset).Pairwise
        (fun a b => b.createdAt ≤ a.createdAt))
    ∧ (∀ (s : Store) (q : String) (d : ObjectiveDTO),
      d ∈ searchObjectives s q s.objectives.length 0 ↔
        ∃ o ∈ s.objectives,
          (containsSubCI o.text q = true ∨ o.tags.contains (jsToLower q) = true)
          ∧ d = mapObjectiveToDTO s o)
    ∧ (∀ (s : Store) (d : ObjectiveDTO),
      d ∈ getObjectivesWithRelations s s.objectives.length 0 ↔
        ∃ o ∈ s.objectives, d = mapObjectiveToDTO s o) := by
  refine ⟨?_, ?_, ?_, ?_⟩
  · intro s q limit offset
    unfold searchObjectives
    rw [List.pairwise_map]
    exact List.Pairwise.sublist
      ((List.take_sublist _ _).trans (List.drop_sublist _ _))
      (sortByCreatedDesc_pairwise _)
  · intro s limit offset
    unfold getObjectivesWithRelations
    rw [List.pairwise_map]
    exact List.Pairwise.sublist
      ((List.take_sublist _ _).trans (List.drop_sublist _ _))
      (sortByCreatedDesc_pairwise _)
  · intro s q d
    unfold searchObjectives
    have hlen : (sortByCreatedDesc (s.objectives.filter (objMatchesQuery q))).length
        ≤ s.objectives.length := by
      rw [sortByCreatedDesc_length]
      exact List.length_filter_le _ _
    rw [List.drop_zero, List.take_of_length_le hlen]
    simp only [List.mem_map]
    constructor
    · rintro ⟨o, ho, rfl⟩
      obtain ⟨homem, hmatch⟩ := List.mem_filter.mp ((sortByCreatedDesc_mem _ o).mp ho)
      refine ⟨o, homem, ?_, rfl⟩
      simpa [objMatchesQuery, Bool.or_eq_true] using hmatch
    · rintro ⟨o, homem, hmatch, rfl⟩
      refine ⟨o, (sortByCreatedDesc_mem _ o).mpr (List.mem_filter.mpr ⟨homem, ?_⟩), rfl⟩
      simpa [objMatchesQuery, Bool.or_eq_true] using hmatch
  · intro s d
    unfold getObjectivesWithRelations
    have hlen : (sortByCreatedDesc s.objectives).length ≤ s.objectives.length := by
      rw [sortByCreatedDesc_length]
    rw [List.drop_zero, List.take_of_length_le hlen]
    simp only [List.mem_map]
    constructor
    · rintro ⟨o, ho, rfl⟩
      exact ⟨o, (sortByCreatedDesc_mem _ o).mp ho, rfl⟩
    · rintro ⟨o, homem, rfl⟩
      exact ⟨o, (sortByCreatedDesc_mem _ o).mpr homem, rfl⟩

/-! ## Upsert update branch frame (C10) -/

theorem updateFirstRel_decomp (p : ObjectiveRelationship → Bool)
    (new : ObjectiveRelationship) :
    ∀ (l : List ObjectiveRelationship) (ex : ObjectiveRelationship),
      l.find? p = some ex →
      ∃ pre post, l = pre ++ ex :: post ∧ (∀ x ∈ pre, p x = false)
        ∧ updateFirstRel p new l = pre ++ new :: post := by
  intro l
  induction l with
  | nil => intro ex h; exact absurd h (by simp)
  | cons x xs ih =>
    intro ex h
    by_cases hpx : p x = true
    · rw [List.find?_cons_of_pos _ hpx] at h
      have hex : x = ex := by simpa using h
      subst hex
      refine ⟨[], xs, by simp, by simp, ?_⟩
      simp [updateFirstRel, hpx]
    · have hpx2 : p x = false := by simpa using hpx
      rw [List.find?_cons_of_neg _ hpx] at h
      obtain ⟨pre, post, h1, h2, h3⟩ := ih ex h
      refine ⟨x :: pre, post, by simp [h1], ?_, ?_⟩
      · intro y hy
        rcases List.mem_cons.mp hy with h4 | h4
        · exact h4 ▸ hpx2
        · exact h2 y h4
      · simp [updateFirstRel, hpx2, h3]

/-- C10: when the Graph Writer's upsert hits an existing
`(source, target, type)` row, the returned row keeps the stored id,
endpoints, type and creation time; the stored rationale and weight are
overwritten only by non-null incoming values (a null draft field leaves
the stored field unchanged); objectives and entries are untouched; and
the relationship list changes only at the matched row, in place. -/
theorem C10_upsert_update_frame :
    ∀ (s : Store) (fromId toId : String) (r : RelationshipDraft)
      (ex : ObjectiveRelationship),
      s.relationships.find? (relKeyMatches fromId toId r.type) = some ex →
      ((upsertOne s fromId toId r).2.id = ex.id
      ∧ (upsertOne s fromId toId r).2.fromId = ex.fromId
      ∧ (upsertOne s fromId toId r).2.toId = ex.toId
      ∧ (upsertOne s fromId toId r).2.type = ex.type
      ∧ (upsertOne s fromId toId r).2.createdAt = ex.createdAt
      ∧ (upsertOne s fromId toId r).2.rationale
          = (match r.rationale with | some v => some v | none => ex.rationale)
      ∧ (upsertOne s fromId toId r).2.weight
          = (match r.weight with | some v => some v | none => ex.weight)
      ∧ (upsertOne s fromId toId r).1.objectives = s.objectives
      ∧ (upsertOne s fromId toId r).1.entries = s.entries
      ∧ (upsertOne s fromId toId r).1.nextId = s.nextId
      ∧ (upsertOne s fromId toId r).1.clock = s.clock
      ∧ ∃ pre post,
          s.relationships = pre ++ ex :: post
          ∧ (∀ x ∈ pre, relKeyMatches fromId toId r.type x = false)
          ∧ (upsertOne s fromId toId r).1.relationships
              = pre ++ (upsertOne s fromId toId r).2 :: post) := by
  intro s fromId toId r ex hfind
  unfold upsertOne
  rw [hfind]
  dsimp only
  refine ⟨rfl, rfl, rfl, rfl, rfl, rfl, rfl, rfl, rfl, rfl, rfl, ?_⟩
  exact updateFirstRel_decomp _ _ s.relationships ex hfind

/-- Closed witness for C10: upserting the stored `(a, b, SUPPORTS)` row
with a draft carrying no rationale and no weight leaves the stored
rationale in place. -/
theorem C10_upsert_update_frame_witness :
    (upsertOne storeRel1 "a" "b"
      { fromRef := "existing:a", toRef := "existing:b", type := .SUPPORTS,
        rationale := none, weight := none }).2.rationale = some "why" :=
  (C10_upsert_update_frame storeRel1 "a" "b"
    { fromRef := "existing:a", toRef := "existing:b", type := .SUPPORTS,
      rationale := none, weight := none } relRow1 (by decide)).2.2.2.2.2.1

end Visium
